import Mathlib

/-!
Verification development for Teensy4TCXO (`src/src/main.cpp`).

The program is an Arduino sketch: two interrupt handlers (`ppsInterrupt`,
`intervalInterrupt`) write volatile 32-bit cycle-counter snapshots, and the
`loop()` function polls them, calibrates a TCXO against a GPS PPS signal and
disciplines an `IntervalTimer`.

Shallow-embedding conventions:
* `double` arithmetic is modelled as exact rational arithmetic (`ℚ`).  All
  quantities of interest (`tcxoMicros`, `countRatio`, `interval`, `dtus`)
  are ratios of integers well inside the range where binary64 comparisons
  against the literal thresholds `500000.0` / `1000000.0` agree with the
  exact rational comparisons, so branch structure is preserved.
* 32-bit unsigned counters are `ℕ` reduced modulo `W = 2^32`; the C
  subtraction `a - b` on `uint32_t` becomes `(a + W - b) % W`.
* The hardware environment (PPS edges, interval-timer firings, FreqCount
  window completions) is an explicit event trace.  An interval-timer firing
  is only enabled once `myTimer.begin` has run, and a FreqCount completion
  only once `FreqCount.begin` has run — these model the peripherals, which
  are passive until started.  One `loopPass` event executes the body of
  `loop()` exactly in source order: the interval branch (lines 113–147),
  the `FreqCount.available()` branch (lines 149–157), then the PPS branch
  (lines 159–207).
* `Serial` output is modelled by recording the emitted drift values in a
  list; `myTimer.begin`/`myTimer.update` by a `timerPeriod : Option ℚ`
  field plus call counters.
-/

namespace Tcxo

/-- Modulus of the 32-bit cycle counter `ARM_DWT_CYCCNT`. -/
def W : ℕ := 4294967296

/-- The empirical fudge factor `0.005` subtracted at `main.cpp:128`. -/
def fudge : ℚ := 5 / 1000

/-- Conversion of a FreqCount pulse count to `tcxoMicros`
(`main.cpp:156`): `tcxoMicros = 10000000.0 / tcxoCount * 1000000.0`. -/
def tcxoMicrosOf (tcxoCount : ℕ) : ℚ :=
  10000000 / (tcxoCount : ℚ) * 1000000

/-- Conversion of a cycle-count difference to microseconds at 600 ticks
per microsecond (`main.cpp:133`): `dtus = dt / 600.0`. -/
def dtusOf (dt : ℕ) : ℚ := (dt : ℚ) / 600

/-- The drift value printed by `main.cpp:136-146`: a `dtus` strictly between
half the span and the full span is reported as `-(1000000 - dtus)`; a `dtus`
strictly above the full span is zeroed; anything else is reported as is. -/
def driftOf (dtus : ℚ) : ℚ :=
  if 500000 < dtus ∧ dtus < 1000000 then -(1000000 - dtus)
  else if 1000000 < dtus then 0 else dtus

/-- The program state: the global volatiles (`main.cpp:57-64`), the statics
of `loop()` (`main.cpp:105-111, 121`), the modelled peripheral state and
instrumentation counters (number of `myTimer.begin` / `myTimer.update` /
`countRatio` computations, completed measurements consumed, observed edges,
emitted drift values). -/
structure St where
  intervalCycles : ℕ
  lastIntervalCycles : ℕ
  ppsCycles : ℕ
  lastPpsCycles : ℕ
  ppsTcxoCount : ℕ
  lastPpsTcxoCount : ℕ
  tcxoMicros : ℚ
  firstTimeCount : ℕ
  firstTimeFlag : Bool
  interval : ℚ
  countRatio : ℚ
  freqStarted : Bool
  freqPending : Option ℕ
  timerStarted : Bool
  timerPeriod : Option ℚ
  beginCount : ℕ
  updateCount : ℕ
  ratioComputedCount : ℕ
  measCount : ℕ
  edgesObserved : ℕ
  intervalCount : ℕ
  emitted : List ℚ
deriving DecidableEq

/-- Initial state, from the initializers at `main.cpp:57-64` and the static
initializers in `loop()` (`main.cpp:105-111, 121`); no peripheral started. -/
def init : St :=
  { intervalCycles := 0
    lastIntervalCycles := 0
    ppsCycles := 0
    lastPpsCycles := 0
    ppsTcxoCount := 0
    lastPpsTcxoCount := 0
    tcxoMicros := 1000000
    firstTimeCount := 0
    firstTimeFlag := true
    interval := 1000000
    countRatio := 1000000000000
    freqStarted := false
    freqPending := none
    timerStarted := false
    timerPeriod := none
    beginCount := 0
    updateCount := 0
    ratioComputedCount := 0
    measCount := 0
    edgesObserved := 0
    intervalCount := 0
    emitted := [] }

/-- Environment events: a PPS rising edge (with the cycle counter and TCXO
tally captured by `ppsInterrupt`), an interval-timer firing (with the cycle
counter captured by `intervalInterrupt`), a FreqCount window completion
(with the measured pulse count), and one pass of `loop()`. -/
inductive Event where
  | ppsEdge (cyc tally : ℕ)
  | intervalFire (cyc : ℕ)
  | freqComplete (count : ℕ)
  | loopPass
deriving DecidableEq

/-- The interval branch of `loop()` (`main.cpp:113-147`): on a change of
`intervalCycles` it recomputes `interval = countRatio * tcxoMicros - 0.005`,
calls `myTimer.update(interval)` and prints the drift derived from
`dt = intervalCycles - ppsCycles` (both read in one critical section). -/
def intervalBranch (s : St) : St :=
  let ic := s.intervalCycles
  let dt := (ic + W - s.ppsCycles) % W
  if ic ≠ s.lastIntervalCycles then
    let newInterval := s.countRatio * s.tcxoMicros - fudge
    { s with
      lastIntervalCycles := ic
      intervalCount := s.intervalCount + 1
      interval := newInterval
      timerPeriod := some newInterval
      updateCount := s.updateCount + 1
      emitted := s.emitted ++ [driftOf (dtusOf dt)] }
  else s

/-- The `FreqCount.available()` branch of `loop()` (`main.cpp:149-157`):
consume a completed measurement and recompute `tcxoMicros`. -/
def freqBranch (s : St) : St :=
  match s.freqPending with
  | some c =>
    { s with
      tcxoMicros := tcxoMicrosOf c
      freqPending := none
      measCount := s.measCount + 1 }
  | none => s

/-- The PPS branch of `loop()` (`main.cpp:159-207`): on a change of
`ppsCycles`, during warm-up (`firstTimeCount < 10`) start FreqCount on the
first edge and log the tally delta on later ones; on the first edge past
warm-up with `firstTimeFlag` still set, compute `countRatio`, start the
interval timer with period `countRatio * tcxoMicros` and clear the flag. -/
def ppsBranch (s : St) : St :=
  let pc := s.ppsCycles
  let tc := s.ppsTcxoCount
  if pc ≠ s.lastPpsCycles then
    let dtt := (pc + W - s.lastPpsCycles) % W
    let ppsMicros : ℚ := (dtt : ℚ) / 600
    let s1 := { s with lastPpsCycles := pc, edgesObserved := s.edgesObserved + 1 }
    if s1.firstTimeCount < 10 then
      if s1.firstTimeCount = 0 then
        { s1 with freqStarted := true, firstTimeCount := s1.firstTimeCount + 1 }
      else
        { s1 with lastPpsTcxoCount := tc, firstTimeCount := s1.firstTimeCount + 1 }
    else if s1.firstTimeFlag then
      let ratio := ppsMicros / s1.tcxoMicros
      let newInterval := ratio * s1.tcxoMicros
      { s1 with
        countRatio := ratio
        interval := newInterval
        timerStarted := true
        timerPeriod := some newInterval
        beginCount := s1.beginCount + 1
        ratioComputedCount := s1.ratioComputedCount + 1
        firstTimeFlag := false }
    else s1
  else s

/-- One pass of `loop()`, in source order. -/
def loopBody (s : St) : St := ppsBranch (freqBranch (intervalBranch s))

/-- One environment step.  Interrupt handlers store the captured values into
the volatiles (reduced mod `2^32`); an interval firing requires the timer to
have been started, and a FreqCount completion requires `FreqCount.begin` to
have run.  Events that the hardware cannot produce yield `none`. -/
def step (s : St) : Event → Option St
  | .ppsEdge c t => some { s with ppsCycles := c % W, ppsTcxoCount := t % W }
  | .intervalFire c =>
      if s.timerStarted then some { s with intervalCycles := c % W } else none
  | .freqComplete c =>
      if s.freqStarted then some { s with freqPending := some c } else none
  | .loopPass => some (loopBody s)

/-- Run a trace of events from a state. -/
def run (s : St) : List Event → Option St
  | [] => some s
  | e :: es =>
    match step s e with
    | some s' => run s' es
    | none => none

/-- Phase invariant of every reachable state: while `firstTimeFlag` is set
the ratio has not been computed, the timer has not been started, the
interval branch has never run, and `firstTimeCount` counts the observed
edges (at most 10); once the flag clears, the ratio has been computed
exactly once, the timer started exactly once, and at least 11 edges have
been observed. -/
def PhaseInv (s : St) : Prop :=
  (s.firstTimeFlag = true →
    s.ratioComputedCount = 0 ∧ s.firstTimeCount ≤ 10 ∧ s.timerStarted = false ∧
    s.beginCount = 0 ∧ s.timerPeriod = none ∧ s.intervalCycles = 0 ∧
    s.lastIntervalCycles = 0 ∧ s.updateCount = 0 ∧ s.emitted = [] ∧
    s.edgesObserved = s.firstTimeCount) ∧
  (s.firstTimeFlag = false →
    s.ratioComputedCount = 1 ∧ s.firstTimeCount = 10 ∧ s.timerStarted = true ∧
    s.beginCount = 1 ∧ 11 ≤ s.edgesObserved)

/-- Bound invariant on the diagnostic stream: every emitted drift value
lies in `(-500000, 1000000]`. -/
def EmitInv (s : St) : Prop :=
  ∀ x ∈ s.emitted, -500000 < x ∧ x ≤ 1000000

/-- Eleven PPS edges, each observed by a loop pass, with no FreqCount
window ever completing: the environment in which the frequency counter
never produces a measurement. -/
def noMeasTrace : List Event :=
  (List.range 11).flatMap (fun k => [Event.ppsEdge (k + 1) 0, Event.loopPass])

/-- The ideal scenario up to (and including) the eleventh edge: edges
exactly 600000000 cycle ticks (1,000,000 µs) apart, one FreqCount window
completing with exactly 10,000,000 pulses before the eleventh edge. -/
def idealPrefix : List Event :=
  (List.range 10).flatMap (fun k => [Event.ppsEdge ((k + 1) * 600000000) 0, Event.loopPass])
    ++ [Event.freqComplete 10000000, Event.loopPass, Event.ppsEdge 6600000000 0]

/-- The ideal scenario including the loop pass that observes the eleventh
edge and performs the calibration. -/
def idealTrace : List Event := idealPrefix ++ [Event.loopPass]

/-- State reached by `noMeasTrace`. -/
def noMeasState : St := (run init noMeasTrace).getD init

/-- State reached by the ideal scenario just before the loop pass that
observes the eleventh edge. -/
def preCalState : St := (run init idealPrefix).getD init

/-- State reached by the ideal scenario followed by one interval-timer
firing (not yet observed by the loop). -/
def calibratedPending : St :=
  (run init (idealTrace ++ [Event.intervalFire 777])).getD init

/-- Three observed edges into warm-up. -/
def warmupTrace : List Event :=
  (List.range 3).flatMap (fun k => [Event.ppsEdge (k + 1) 0, Event.loopPass])

/-- State reached by `warmupTrace`. -/
def warmupState : St := (run init warmupTrace).getD init

/-- The ideal scenario, an interval firing and the loop pass observing it
(which emits one drift record). -/
def idealEmitTrace : List Event :=
  idealTrace ++ [Event.intervalFire 12345, Event.loopPass]

/-- State reached by `idealEmitTrace`. -/
def idealEmitState : St := (run init idealEmitTrace).getD init

/-- A state with a completed FreqCount measurement of 10,000,050 pulses
pending (5 ppm fast oscillator), not yet consumed by the loop. -/
def measPending : St :=
  { init with freqStarted := true, freqPending := some 10000050 }

/-- Shared state of the PPS capture handoff, abstracted by provenance: which
edge's value each of the two volatiles (`ppsCycles`, written at
`main.cpp:70`, and `ppsTcxoCount`, written at `main.cpp:73`) currently
holds, whether the handler is between its two stores, and the pairs the
main loop's critical-section copies (`main.cpp:159-162`) have observed. -/
structure PpsShared where
  cycOwner : ℕ
  talOwner : ℕ
  inHandler : Bool
  reads : List (ℕ × ℕ)
deriving DecidableEq

/-- Initial handoff state: both volatiles hold their edge-0 (initial)
values and the handler is not running. -/
def pinit : PpsShared := { cycOwner := 0, talOwner := 0, inHandler := false, reads := [] }

/-- Atomic actions of the handoff: the handler's first store (entering the
handler for edge `k` and writing `ppsCycles`), its second store (writing
`ppsTcxoCount` and returning), and the main loop's critical-section copy.
The enabling conditions model the hardware: the PPS handler cannot preempt
itself, and the copy runs with the interrupt disabled while the handler —
which preempts the main loop — always runs to completion before the main
loop resumes, so the copy never falls between the two stores. -/
inductive PAct where
  | handlerCyc (k : ℕ)
  | handlerTally
  | critCopy
deriving DecidableEq

/-- One atomic action of the handoff model. -/
def pstep (s : PpsShared) : PAct → Option PpsShared
  | .handlerCyc k =>
      if s.inHandler then none
      else some { s with cycOwner := k, inHandler := true }
  | .handlerTally =>
      if s.inHandler then some { s with talOwner := s.cycOwner, inHandler := false }
      else none
  | .critCopy =>
      if s.inHandler then none
      else some { s with reads := s.reads ++ [(s.cycOwner, s.talOwner)] }

/-- Run a trace of handoff actions. -/
def prun (s : PpsShared) : List PAct → Option PpsShared
  | [] => some s
  | a :: as =>
    match pstep s a with
    | some s' => prun s' as
    | none => none

/-- Consistency invariant of the handoff: outside the handler the two
volatiles hold values from the same edge, and every copied pair matched. -/
def PInv (s : PpsShared) : Prop :=
  (s.inHandler = false → s.cycOwner = s.talOwner) ∧
  ∀ p ∈ s.reads, p.1 = p.2

/-- Two complete handler executions (edges 1 and 2), each followed by a
main-loop critical-section copy. -/
def c8Trace : List PAct :=
  [PAct.handlerCyc 1, PAct.handlerTally, PAct.critCopy,
   PAct.handlerCyc 2, PAct.handlerTally, PAct.critCopy]

/-- State reached by `c8Trace`. -/
def c8State : PpsShared := (prun pinit c8Trace).getD pinit

/-! ### Field-preservation lemmas for the three branches of `loop()` -/

@[simp] theorem intervalBranch_intervalCycles (s : St) :
    (intervalBranch s).intervalCycles = s.intervalCycles := by
  unfold intervalBranch; dsimp only; split <;> rfl

@[simp] theorem intervalBranch_firstTimeFlag (s : St) :
    (intervalBranch s).firstTimeFlag = s.firstTimeFlag := by
  unfold intervalBranch; dsimp only; split <;> rfl

@[simp] theorem intervalBranch_firstTimeCount (s : St) :
    (intervalBranch s).firstTimeCount = s.firstTimeCount := by
  unfold intervalBranch; dsimp only; split <;> rfl

@[simp] theorem intervalBranch_timerStarted (s : St) :
    (intervalBranch s).timerStarted = s.timerStarted := by
  unfold intervalBranch; dsimp only; split <;> rfl

@[simp] theorem intervalBranch_ratioComputedCount (s : St) :
    (intervalBranch s).ratioComputedCount = s.ratioComputedCount := by
  unfold intervalBranch; dsimp only; split <;> rfl

@[simp] theorem intervalBranch_beginCount (s : St) :
    (intervalBranch s).beginCount = s.beginCount := by
  unfold intervalBranch; dsimp only; split <;> rfl

@[simp] theorem intervalBranch_countRatio (s : St) :
    (intervalBranch s).countRatio = s.countRatio := by
  unfold intervalBranch; dsimp only; split <;> rfl

@[simp] theorem intervalBranch_tcxoMicros (s : St) :
    (intervalBranch s).tcxoMicros = s.tcxoMicros := by
  unfold intervalBranch; dsimp only; split <;> rfl

@[simp] theorem intervalBranch_ppsCycles (s : St) :
    (intervalBranch s).ppsCycles = s.ppsCycles := by
  unfold intervalBranch; dsimp only; split <;> rfl

@[simp] theorem intervalBranch_lastPpsCycles (s : St) :
    (intervalBranch s).lastPpsCycles = s.lastPpsCycles := by
  unfold intervalBranch; dsimp only; split <;> rfl

@[simp] theorem intervalBranch_ppsTcxoCount (s : St) :
    (intervalBranch s).ppsTcxoCount = s.ppsTcxoCount := by
  unfold intervalBranch; dsimp only; split <;> rfl

@[simp] theorem intervalBranch_edgesObserved (s : St) :
    (intervalBranch s).edgesObserved = s.edgesObserved := by
  unfold intervalBranch; dsimp only; split <;> rfl

@[simp] theorem intervalBranch_freqPending (s : St) :
    (intervalBranch s).freqPending = s.freqPending := by
  unfold intervalBranch; dsimp only; split <;> rfl

@[simp] theorem intervalBranch_freqStarted (s : St) :
    (intervalBranch s).freqStarted = s.freqStarted := by
  unfold intervalBranch; dsimp only; split <;> rfl

@[simp] theorem intervalBranch_measCount (s : St) :
    (intervalBranch s).measCount = s.measCount := by
  unfold intervalBranch; dsimp only; split <;> rfl

@[simp] theorem freqBranch_intervalCycles (s : St) :
    (freqBranch s).intervalCycles = s.intervalCycles := by
  unfold freqBranch; cases s.freqPending <;> rfl

@[simp] theorem freqBranch_lastIntervalCycles (s : St) :
    (freqBranch s).lastIntervalCycles = s.lastIntervalCycles := by
  unfold freqBranch; cases s.freqPending <;> rfl

@[simp] theorem freqBranch_firstTimeFlag (s : St) :
    (freqBranch s).firstTimeFlag = s.firstTimeFlag := by
  unfold freqBranch; cases s.freqPending <;> rfl

@[simp] theorem freqBranch_firstTimeCount (s : St) :
    (freqBranch s).firstTimeCount = s.firstTimeCount := by
  unfold freqBranch; cases s.freqPending <;> rfl

@[simp] theorem freqBranch_timerStarted (s : St) :
    (freqBranch s).timerStarted = s.timerStarted := by
  unfold freqBranch; cases s.freqPending <;> rfl

@[simp] theorem freqBranch_timerPeriod (s : St) :
    (freqBranch s).timerPeriod = s.timerPeriod := by
  unfold freqBranch; cases s.freqPending <;> rfl

@[simp] theorem freqBranch_ratioComputedCount (s : St) :
    (freqBranch s).ratioComputedCount = s.ratioComputedCount := by
  unfold freqBranch; cases s.freqPending <;> rfl

@[simp] theorem freqBranch_beginCount (s : St) :
    (freqBranch s).beginCount = s.beginCount := by
  unfold freqBranch; cases s.freqPending <;> rfl

@[simp] theorem freqBranch_updateCount (s : St) :
    (freqBranch s).updateCount = s.updateCount := by
  unfold freqBranch; cases s.freqPending <;> rfl

@[simp] theorem freqBranch_countRatio (s : St) :
    (freqBranch s).countRatio = s.countRatio := by
  unfold freqBranch; cases s.freqPending <;> rfl

@[simp] theorem freqBranch_interval (s : St) :
    (freqBranch s).interval = s.interval := by
  unfold freqBranch; cases s.freqPending <;> rfl

@[simp] theorem freqBranch_ppsCycles (s : St) :
    (freqBranch s).ppsCycles = s.ppsCycles := by
  unfold freqBranch; cases s.freqPending <;> rfl

@[simp] theorem freqBranch_lastPpsCycles (s : St) :
    (freqBranch s).lastPpsCycles = s.lastPpsCycles := by
  unfold freqBranch; cases s.freqPending <;> rfl

@[simp] theorem freqBranch_ppsTcxoCount (s : St) :
    (freqBranch s).ppsTcxoCount = s.ppsTcxoCount := by
  unfold freqBranch; cases s.freqPending <;> rfl

@[simp] theorem freqBranch_lastPpsTcxoCount (s : St) :
    (freqBranch s).lastPpsTcxoCount = s.lastPpsTcxoCount := by
  unfold freqBranch; cases s.freqPending <;> rfl

@[simp] theorem freqBranch_edgesObserved (s : St) :
    (freqBranch s).edgesObserved = s.edgesObserved := by
  unfold freqBranch; cases s.freqPending <;> rfl

@[simp] theorem freqBranch_emitted (s : St) :
    (freqBranch s).emitted = s.emitted := by
  unfold freqBranch; cases s.freqPending <;> rfl

@[simp] theorem freqBranch_intervalCount (s : St) :
    (freqBranch s).intervalCount = s.intervalCount := by
  unfold freqBranch; cases s.freqPending <;> rfl

@[simp] theorem freqBranch_freqStarted (s : St) :
    (freqBranch s).freqStarted = s.freqStarted := by
  unfold freqBranch; cases s.freqPending <;> rfl

@[simp] theorem ppsBranch_intervalCycles (s : St) :
    (ppsBranch s).intervalCycles = s.intervalCycles := by
  unfold ppsBranch; dsimp only; split_ifs <;> rfl

@[simp] theorem ppsBranch_lastIntervalCycles (s : St) :
    (ppsBranch s).lastIntervalCycles = s.lastIntervalCycles := by
  unfold ppsBranch; dsimp only; split_ifs <;> rfl

@[simp] theorem ppsBranch_tcxoMicros (s : St) :
    (ppsBranch s).tcxoMicros = s.tcxoMicros := by
  unfold ppsBranch; dsimp only; split_ifs <;> rfl

@[simp] theorem ppsBranch_updateCount (s : St) :
    (ppsBranch s).updateCount = s.updateCount := by
  unfold ppsBranch; dsimp only; split_ifs <;> rfl

@[simp] theorem ppsBranch_emitted (s : St) :
    (ppsBranch s).emitted = s.emitted := by
  unfold ppsBranch; dsimp only; split_ifs <;> rfl

@[simp] theorem ppsBranch_intervalCount (s : St) :
    (ppsBranch s).intervalCount = s.intervalCount := by
  unfold ppsBranch; dsimp only; split_ifs <;> rfl

@[simp] theorem ppsBranch_measCount (s : St) :
    (ppsBranch s).measCount = s.measCount := by
  unfold ppsBranch; dsimp only; split_ifs <;> rfl

@[simp] theorem ppsBranch_freqPending (s : St) :
    (ppsBranch s).freqPending = s.freqPending := by
  unfold ppsBranch; dsimp only; split_ifs <;> rfl

@[simp] theorem ppsBranch_ppsCycles (s : St) :
    (ppsBranch s).ppsCycles = s.ppsCycles := by
  unfold ppsBranch; dsimp only; split_ifs <;> rfl

@[simp] theorem ppsBranch_ppsTcxoCount (s : St) :
    (ppsBranch s).ppsTcxoCount = s.ppsTcxoCount := by
  unfold ppsBranch; dsimp only; split_ifs <;> rfl

/-! ### Characterization lemmas for the branches of `loop()` -/

theorem intervalBranch_eq_self {s : St}
    (h : s.intervalCycles = s.lastIntervalCycles) : intervalBranch s = s := by
  unfold intervalBranch; dsimp only; rw [if_neg]; simp [h]

theorem intervalBranch_eq_update {s : St}
    (h : s.intervalCycles ≠ s.lastIntervalCycles) :
    intervalBranch s =
      { s with
        lastIntervalCycles := s.intervalCycles
        intervalCount := s.intervalCount + 1
        interval := s.countRatio * s.tcxoMicros - fudge
        timerPeriod := some (s.countRatio * s.tcxoMicros - fudge)
        updateCount := s.updateCount + 1
        emitted := s.emitted ++
          [driftOf (dtusOf ((s.intervalCycles + W - s.ppsCycles) % W))] } := by
  unfold intervalBranch; dsimp only; rw [if_pos h]

theorem freqBranch_eq_self {s : St} (h : s.freqPending = none) :
    freqBranch s = s := by
  unfold freqBranch; rw [h]

theorem freqBranch_eq_meas {s : St} {c : ℕ} (h : s.freqPending = some c) :
    freqBranch s =
      { s with
        tcxoMicros := tcxoMicrosOf c
        freqPending := none
        measCount := s.measCount + 1 } := by
  unfold freqBranch; rw [h]

theorem ppsBranch_eq_self {s : St} (h : s.ppsCycles = s.lastPpsCycles) :
    ppsBranch s = s := by
  unfold ppsBranch; dsimp only; rw [if_neg]; simp [h]

theorem ppsBranch_eq_warmupFirst {s : St}
    (h : s.ppsCycles ≠ s.lastPpsCycles) (h0 : s.firstTimeCount = 0) :
    ppsBranch s =
      { s with
        lastPpsCycles := s.ppsCycles
        edgesObserved := s.edgesObserved + 1
        freqStarted := true
        firstTimeCount := s.firstTimeCount + 1 } := by
  unfold ppsBranch; dsimp only
  rw [if_pos h, if_pos (show s.firstTimeCount < 10 by omega), if_pos h0]

theorem ppsBranch_eq_warmupLater {s : St}
    (h : s.ppsCycles ≠ s.lastPpsCycles) (hlt : s.firstTimeCount < 10)
    (h0 : s.firstTimeCount ≠ 0) :
    ppsBranch s =
      { s with
        lastPpsCycles := s.ppsCycles
        edgesObserved := s.edgesObserved + 1
        lastPpsTcxoCount := s.ppsTcxoCount
        firstTimeCount := s.firstTimeCount + 1 } := by
  unfold ppsBranch; dsimp only
  rw [if_pos h, if_pos hlt, if_neg h0]

theorem ppsBranch_eq_calibrate {s : St}
    (h : s.ppsCycles ≠ s.lastPpsCycles) (hge : ¬ s.firstTimeCount < 10)
    (hflag : s.firstTimeFlag = true) :
    ppsBranch s =
      { s with
        lastPpsCycles := s.ppsCycles
        edgesObserved := s.edgesObserved + 1
        countRatio := (((s.ppsCycles + W - s.lastPpsCycles) % W : ℕ) : ℚ) / 600 / s.tcxoMicros
        interval := (((s.ppsCycles + W - s.lastPpsCycles) % W : ℕ) : ℚ) / 600 / s.tcxoMicros * s.tcxoMicros
        timerStarted := true
        timerPeriod := some ((((s.ppsCycles + W - s.lastPpsCycles) % W : ℕ) : ℚ) / 600 / s.tcxoMicros * s.tcxoMicros)
        beginCount := s.beginCount + 1
        ratioComputedCount := s.ratioComputedCount + 1
        firstTimeFlag := false } := by
  unfold ppsBranch; dsimp only
  rw [if_pos h, if_neg hge, if_pos hflag]

theorem ppsBranch_eq_post {s : St}
    (h : s.ppsCycles ≠ s.lastPpsCycles) (hge : ¬ s.firstTimeCount < 10)
    (hflag : s.firstTimeFlag = false) :
    ppsBranch s =
      { s with
        lastPpsCycles := s.ppsCycles
        edgesObserved := s.edgesObserved + 1 } := by
  unfold ppsBranch; dsimp only
  rw [if_pos h, if_neg hge, if_neg (by simp [hflag])]

/-! ### Basic facts about the drift computation -/

theorem dtusOf_nonneg (dt : ℕ) : 0 ≤ dtusOf dt := by
  unfold dtusOf; positivity

theorem driftOf_mem_Ioc {q : ℚ} (h : 0 ≤ q) :
    -500000 < driftOf q ∧ driftOf q ≤ 1000000 := by
  unfold driftOf
  split_ifs with h1 h2
  · constructor <;> [linarith [h1.1]; linarith [h1.2]]
  · norm_num
  · push_neg at h2
    exact ⟨by linarith, h2⟩

/-! ### Invariant preservation -/

theorem phaseInv_init : PhaseInv init := by
  constructor <;> intro h <;> simp [init] at h ⊢

theorem phaseInv_intervalBranch {s : St} (hs : PhaseInv s) :
    PhaseInv (intervalBranch s) := by
  by_cases hch : s.intervalCycles = s.lastIntervalCycles
  · rw [intervalBranch_eq_self hch]; exact hs
  · cases hf : s.firstTimeFlag with
    | true =>
      obtain ⟨-, -, -, -, -, h5, h6, -⟩ := hs.1 hf
      exact absurd (h5.trans h6.symm) hch
    | false =>
      rw [intervalBranch_eq_update hch]
      refine ⟨fun hflag => ?_, fun _ => hs.2 hf⟩
      exact absurd (hf ▸ hflag : (false : Bool) = true) (by simp)

theorem phaseInv_freqBranch {s : St} (hs : PhaseInv s) :
    PhaseInv (freqBranch s) := by
  cases hp : s.freqPending with
  | none => rw [freqBranch_eq_self hp]; exact hs
  | some c => rw [freqBranch_eq_meas hp]; exact hs

theorem phaseInv_ppsBranch {s : St} (hs : PhaseInv s) :
    PhaseInv (ppsBranch s) := by
  by_cases hch : s.ppsCycles = s.lastPpsCycles
  · rw [ppsBranch_eq_self hch]; exact hs
  · cases hf : s.firstTimeFlag with
    | true =>
      obtain ⟨hr, hc10, hts, hbc, htp, hic, hlic, huc, hem, hedge⟩ := hs.1 hf
      by_cases hlt : s.firstTimeCount < 10
      · by_cases h0 : s.firstTimeCount = 0
        · rw [ppsBranch_eq_warmupFirst hch h0]
          refine ⟨fun _ => ?_, fun hflag => ?_⟩
          · exact ⟨hr, show s.firstTimeCount + 1 ≤ 10 by omega, hts, hbc, htp,
              hic, hlic, huc, hem,
              show s.edgesObserved + 1 = s.firstTimeCount + 1 by omega⟩
          · exact absurd (hf ▸ hflag : (true : Bool) = false) (by simp)
        · rw [ppsBranch_eq_warmupLater hch hlt h0]
          refine ⟨fun _ => ?_, fun hflag => ?_⟩
          · exact ⟨hr, show s.firstTimeCount + 1 ≤ 10 by omega, hts, hbc, htp,
              hic, hlic, huc, hem,
              show s.edgesObserved + 1 = s.firstTimeCount + 1 by omega⟩
          · exact absurd (hf ▸ hflag : (true : Bool) = false) (by simp)
      · rw [ppsBranch_eq_calibrate hch hlt hf]
        refine ⟨fun hflag => ?_, fun _ => ?_⟩
        · exact absurd hflag (by simp)
        · exact ⟨show s.ratioComputedCount + 1 = 1 by omega,
            show s.firstTimeCount = 10 by omega, rfl,
            show s.beginCount + 1 = 1 by omega,
            show 11 ≤ s.edgesObserved + 1 by omega⟩
    | false =>
      obtain ⟨hr, hc10, hts, hbc, hedge⟩ := hs.2 hf
      have hge : ¬ s.firstTimeCount < 10 := by omega
      rw [ppsBranch_eq_post hch hge hf]
      refine ⟨fun hflag => ?_, fun _ => ?_⟩
      · exact absurd (hf ▸ hflag : (false : Bool) = true) (by simp)
      · exact ⟨hr, hc10, hts, hbc, show 11 ≤ s.edgesObserved + 1 by omega⟩

theorem phaseInv_loopBody {s : St} (hs : PhaseInv s) : PhaseInv (loopBody s) :=
  phaseInv_ppsBranch (phaseInv_freqBranch (phaseInv_intervalBranch hs))

theorem phaseInv_step {s s' : St} {e : Event} (hs : PhaseInv s)
    (h : step s e = some s') : PhaseInv s' := by
  cases e with
  | ppsEdge c t =>
    simp only [step, Option.some.injEq] at h
    subst h
    exact ⟨fun hf => hs.1 hf, fun hf => hs.2 hf⟩
  | intervalFire c =>
    simp only [step] at h
    by_cases hts : s.timerStarted = true
    · rw [if_pos hts, Option.some.injEq] at h
      subst h
      refine ⟨fun hf => ?_, fun hf => hs.2 hf⟩
      obtain ⟨-, -, hts', -⟩ := hs.1 hf
      exact absurd hts (by simp [hts'])
    · rw [if_neg hts] at h
      cases h
  | freqComplete c =>
    simp only [step] at h
    by_cases hfs : s.freqStarted = true
    · rw [if_pos hfs, Option.some.injEq] at h
      subst h
      exact ⟨fun hf => hs.1 hf, fun hf => hs.2 hf⟩
    · rw [if_neg hfs] at h
      cases h
  | loopPass =>
    simp only [step, Option.some.injEq] at h
    subst h
    exact phaseInv_loopBody hs

theorem phaseInv_run {tr : List Event} :
    ∀ {s s' : St}, PhaseInv s → run s tr = some s' → PhaseInv s' := by
  induction tr with
  | nil =>
    intro s s' hs h
    simp only [run, Option.some.injEq] at h
    subst h; exact hs
  | cons e es ih =>
    intro s s' hs h
    simp only [run] at h
    cases hstep : step s e with
    | none => rw [hstep] at h; cases h
    | some s1 =>
      rw [hstep] at h
      exact ih (phaseInv_step hs hstep) h

theorem phaseInv_reachable {tr : List Event} {s : St}
    (h : run init tr = some s) : PhaseInv s :=
  phaseInv_run phaseInv_init h

theorem emitInv_init : EmitInv init := by
  intro x hx
  simp [init] at hx

theorem emitInv_intervalBranch {s : St} (hs : EmitInv s) :
    EmitInv (intervalBranch s) := by
  by_cases hch : s.intervalCycles = s.lastIntervalCycles
  · rw [intervalBranch_eq_self hch]; exact hs
  · rw [intervalBranch_eq_update hch]
    intro x hx
    have hx' : x ∈ s.emitted ++
        [driftOf (dtusOf ((s.intervalCycles + W - s.ppsCycles) % W))] := hx
    rcases List.mem_append.mp hx' with hmem | hmem
    · exact hs x hmem
    · rw [List.mem_singleton.mp hmem]
      exact driftOf_mem_Ioc (dtusOf_nonneg _)

theorem emitInv_freqBranch {s : St} (hs : EmitInv s) :
    EmitInv (freqBranch s) := by
  intro x hx
  rw [freqBranch_emitted] at hx
  exact hs x hx

theorem emitInv_ppsBranch {s : St} (hs : EmitInv s) :
    EmitInv (ppsBranch s) := by
  intro x hx
  rw [ppsBranch_emitted] at hx
  exact hs x hx

theorem emitInv_loopBody {s : St} (hs : EmitInv s) : EmitInv (loopBody s) :=
  emitInv_ppsBranch (emitInv_freqBranch (emitInv_intervalBranch hs))

theorem emitInv_step {s s' : St} {e : Event} (hs : EmitInv s)
    (h : step s e = some s') : EmitInv s' := by
  cases e with
  | ppsEdge c t =>
    simp only [step, Option.some.injEq] at h
    subst h
    exact fun x hx => hs x hx
  | intervalFire c =>
    simp only [step] at h
    by_cases hts : s.timerStarted = true
    · rw [if_pos hts, Option.some.injEq] at h
      subst h
      exact fun x hx => hs x hx
    · rw [if_neg hts] at h
      cases h
  | freqComplete c =>
    simp only [step] at h
    by_cases hfs : s.freqStarted = true
    · rw [if_pos hfs, Option.some.injEq] at h
      subst h
      exact fun x hx => hs x hx
    · rw [if_neg hfs] at h
      cases h
  | loopPass =>
    simp only [step, Option.some.injEq] at h
    subst h
    exact emitInv_loopBody hs

theorem emitInv_run {tr : List Event} :
    ∀ {s s' : St}, EmitInv s → run s tr = some s' → EmitInv s' := by
  induction tr with
  | nil =>
    intro s s' hs h
    simp only [run, Option.some.injEq] at h
    subst h; exact hs
  | cons e es ih =>
    intro s s' hs h
    simp only [run] at h
    cases hstep : step s e with
    | none => rw [hstep] at h; cases h
    | some s1 =>
      rw [hstep] at h
      exact ih (emitInv_step hs hstep) h

/-! ### Invariant of the PPS handoff interleaving model -/

theorem pinv_init : PInv pinit := by
  constructor
  · intro _; rfl
  · intro p hp; simp [pinit] at hp

theorem pinv_pstep {s s' : PpsShared} {a : PAct} (hs : PInv s)
    (h : pstep s a = some s') : PInv s' := by
  cases a with
  | handlerCyc k =>
    simp only [pstep] at h
    by_cases hin : s.inHandler = true
    · rw [if_pos hin] at h; cases h
    · rw [if_neg hin, Option.some.injEq] at h
      subst h
      refine ⟨fun hfalse => ?_, hs.2⟩
      exact absurd hfalse (by simp)
  | handlerTally =>
    simp only [pstep] at h
    by_cases hin : s.inHandler = true
    · rw [if_pos hin, Option.some.injEq] at h
      subst h
      exact ⟨fun _ => rfl, hs.2⟩
    · rw [if_neg hin] at h; cases h
  | critCopy =>
    simp only [pstep] at h
    by_cases hin : s.inHandler = true
    · rw [if_pos hin] at h; cases h
    · rw [if_neg hin, Option.some.injEq] at h
      subst h
      have hoff : s.inHandler = false := by simpa using hin
      refine ⟨fun _ => hs.1 hoff, fun p hp => ?_⟩
      have hp' : p ∈ s.reads ++ [(s.cycOwner, s.talOwner)] := hp
      rcases List.mem_append.mp hp' with hmem | hmem
      · exact hs.2 p hmem
      · rw [List.mem_singleton.mp hmem]
        exact hs.1 hoff

theorem pinv_prun {tr : List PAct} :
    ∀ {s s' : PpsShared}, PInv s → prun s tr = some s' → PInv s' := by
  induction tr with
  | nil =>
    intro s s' hs h
    simp only [prun, Option.some.injEq] at h
    subst h; exact hs
  | cons a as ih =>
    intro s s' hs h
    simp only [prun] at h
    cases hstep : pstep s a with
    | none => rw [hstep] at h; cases h
    | some s1 =>
      rw [hstep] at h
      exact ih (pinv_pstep hs hstep) h

/-- ppsBranch can only change the timer and calibration fields in its
calibration sub-branch, which requires `firstTimeFlag` set; with the flag
cleared all of them are preserved. -/
theorem ppsBranch_preserved_of_flagFalse {t : St} (hf : t.firstTimeFlag = false) :
    (ppsBranch t).interval = t.interval ∧
    (ppsBranch t).timerPeriod = t.timerPeriod ∧
    (ppsBranch t).timerStarted = t.timerStarted ∧
    (ppsBranch t).beginCount = t.beginCount ∧
    (ppsBranch t).ratioComputedCount = t.ratioComputedCount ∧
    (ppsBranch t).countRatio = t.countRatio := by
  unfold ppsBranch; dsimp only
  split_ifs with h1 h2 h3 h4
  · exact ⟨rfl, rfl, rfl, rfl, rfl, rfl⟩
  · exact ⟨rfl, rfl, rfl, rfl, rfl, rfl⟩
  · rw [hf] at h4; exact absurd h4 (by simp)
  · exact ⟨rfl, rfl, rfl, rfl, rfl, rfl⟩
  · exact ⟨rfl, rfl, rfl, rfl, rfl, rfl⟩

/-! ### The claims -/

/-- C1, counterexample to the claim as stated: the code never checks that the
frequency counter has produced a measurement before calibrating.  In the run
`noMeasTrace` — eleven observed PPS edges while FreqCount never completes a
window — `countRatio` is computed (`ratioComputedCount = 1`) although no
completed measurement was ever consumed (`measCount = 0`), using the initial
default `tcxoMicros = 1000000.0` that no measurement set. -/
theorem C1_counterexample :
    (run init noMeasTrace).map St.ratioComputedCount = some 1 ∧
    (run init noMeasTrace).map St.measCount = some 0 ∧
    (run init noMeasTrace).map St.tcxoMicros = some 1000000 :=
  ⟨by decide, by decide, rfl⟩

/-- C1, amended: in every run `countRatio` is computed at most once, and it is
computed exactly when at least eleven reference edges have been observed (so
only after the 10-edge warm-up has elapsed); the availability of a completed
oscillator measurement is not required by the code. -/
theorem C1_calibration_once (tr : List Event) (s : St)
    (h : run init tr = some s) :
    s.ratioComputedCount ≤ 1 ∧
    (s.ratioComputedCount = 1 → 11 ≤ s.edgesObserved) ∧
    (11 ≤ s.edgesObserved → s.ratioComputedCount = 1) := by
  have hp := phaseInv_reachable h
  cases hf : s.firstTimeFlag with
  | true =>
    obtain ⟨hr, hc10, -, -, -, -, -, -, -, hedge⟩ := hp.1 hf
    exact ⟨by omega, by omega, by omega⟩
  | false =>
    obtain ⟨hr, -, -, -, hedge⟩ := hp.2 hf
    exact ⟨by omega, fun _ => hedge, fun _ => hr⟩

/-- Witness for C1: the amended statement applied to the run `noMeasTrace`. -/
theorem C1_calibration_once_witness :
    noMeasState.ratioComputedCount ≤ 1 ∧
    (noMeasState.ratioComputedCount = 1 → 11 ≤ noMeasState.edgesObserved) ∧
    (11 ≤ noMeasState.edgesObserved → noMeasState.ratioComputedCount = 1) :=
  C1_calibration_once noMeasTrace noMeasState rfl

/-- C2: for every 32-bit cycle difference `dt`, with `dtus = dt / 600`
microseconds: if `500000 < dtus < 1000000` the reported drift equals
`-(1000000 - dtus)`; if `dtus > 1000000` the reported drift equals `0`;
if `dtus ≤ 500000` the reported drift equals `dtus` unchanged. -/
theorem C2_drift_sign_convention (dt : ℕ) :
    (500000 < dtusOf dt ∧ dtusOf dt < 1000000 →
      driftOf (dtusOf dt) = -(1000000 - dtusOf dt)) ∧
    (1000000 < dtusOf dt → driftOf (dtusOf dt) = 0) ∧
    (dtusOf dt ≤ 500000 → driftOf (dtusOf dt) = dtusOf dt) := by
  refine ⟨fun h => ?_, fun h => ?_, fun h => ?_⟩
  · unfold driftOf; rw [if_pos h]
  · unfold driftOf
    rw [if_neg (by rintro ⟨-, h2⟩; linarith), if_pos h]
  · unfold driftOf
    rw [if_neg (by rintro ⟨h1, -⟩; linarith), if_neg (by linarith)]

/-- Witness for C2: the three cases at `dt = 300000300` (dtus = 500000.5),
`dt = 660000000` (dtus = 1100000) and `dt = 120` (dtus = 0.2). -/
theorem C2_drift_sign_convention_witness :
    driftOf (dtusOf 300000300) = -(1000000 - dtusOf 300000300) ∧
    driftOf (dtusOf 660000000) = 0 ∧
    driftOf (dtusOf 120) = dtusOf 120 :=
  ⟨(C2_drift_sign_convention 300000300).1 (by norm_num [dtusOf]),
   (C2_drift_sign_convention 660000000).2.1 (by norm_num [dtusOf]),
   (C2_drift_sign_convention 120).2.2 (by norm_num [dtusOf])⟩

/-- C3: in any state with calibration done (`firstTimeFlag` cleared), the loop
pass that observes an `IntervalCapture` change recomputes the programmed
period as exactly `countRatio * tcxoMicros - 0.005` from the `tcxoMicros`
value current at that point, and reprograms the periodic timer with that
period via `myTimer.update` within the same pass — i.e. before the timer can
fire again. -/
theorem C3_resync_after_calibration (s : St) (hcal : s.firstTimeFlag = false)
    (hchg : s.intervalCycles ≠ s.lastIntervalCycles) :
    (loopBody s).interval = s.countRatio * s.tcxoMicros - fudge ∧
    (loopBody s).timerPeriod = some (s.countRatio * s.tcxoMicros - fudge) ∧
    (loopBody s).updateCount = s.updateCount + 1 := by
  have h1 := intervalBranch_eq_update hchg
  have hflag2 : (freqBranch (intervalBranch s)).firstTimeFlag = false := by
    rw [freqBranch_firstTimeFlag, intervalBranch_firstTimeFlag]; exact hcal
  obtain ⟨hi, hpd, -, -, -, -⟩ := ppsBranch_preserved_of_flagFalse hflag2
  unfold loopBody
  refine ⟨?_, ?_, ?_⟩
  · rw [hi, freqBranch_interval, h1]
  · rw [hpd, freqBranch_timerPeriod, h1]
  · rw [ppsBranch_updateCount, freqBranch_updateCount, h1]

/-- Witness for C3: the calibrated state of the ideal scenario with one
pending (unobserved) interval firing. -/
theorem C3_resync_after_calibration_witness :
    (loopBody calibratedPending).interval =
      calibratedPending.countRatio * calibratedPending.tcxoMicros - fudge ∧
    (loopBody calibratedPending).timerPeriod =
      some (calibratedPending.countRatio * calibratedPending.tcxoMicros - fudge) ∧
    (loopBody calibratedPending).updateCount = calibratedPending.updateCount + 1 :=
  C3_resync_after_calibration calibratedPending (by decide) (by decide)

/-- C4: in every run, while `countRatio` has not been computed the periodic
timer has not been started; and any step that starts the timer is the
calibration step: immediately after it the ratio has been computed exactly
once and the initial period handed to `myTimer.begin` is exactly
`countRatio * tcxoMicros`, with no fudge subtracted. -/
theorem C4_timer_started_at_calibration (tr : List Event) (s s' : St)
    (e : Event) (h : run init tr = some s) (hstep : step s e = some s') :
    (s.ratioComputedCount = 0 → s.timerStarted = false) ∧
    (s.timerStarted = false → s'.timerStarted = true →
      s'.timerPeriod = some (s'.countRatio * s'.tcxoMicros) ∧
      s'.ratioComputedCount = 1) := by
  have hp := phaseInv_reachable h
  constructor
  · intro h0
    cases hf : s.firstTimeFlag with
    | true => exact (hp.1 hf).2.2.1
    | false =>
      obtain ⟨hr, -⟩ := hp.2 hf
      omega
  · intro hts hts'
    cases e with
    | ppsEdge c t =>
      simp only [step, Option.some.injEq] at hstep
      subst hstep
      have h2 : s.timerStarted = true := hts'
      rw [hts] at h2
      exact absurd h2 (by simp)
    | intervalFire c =>
      simp only [step] at hstep
      rw [if_neg (by simp [hts])] at hstep
      cases hstep
    | freqComplete c =>
      simp only [step] at hstep
      by_cases hfs : s.freqStarted = true
      · rw [if_pos hfs, Option.some.injEq] at hstep
        subst hstep
        have h2 : s.timerStarted = true := hts'
        rw [hts] at h2
        exact absurd h2 (by simp)
      · rw [if_neg hfs] at hstep
        cases hstep
    | loopPass =>
      simp only [step, Option.some.injEq] at hstep
      subst hstep
      cases hf : s.firstTimeFlag with
      | false =>
        obtain ⟨-, -, hts2, -⟩ := hp.2 hf
        rw [hts] at hts2
        exact absurd hts2 (by simp)
      | true =>
        obtain ⟨hr, hc10, -, hbc, -, hic, hlic, -, -, -⟩ := hp.1 hf
        have hib : intervalBranch s = s := intervalBranch_eq_self (hic.trans hlic.symm)
        unfold loopBody at hts' ⊢
        rw [hib] at hts' ⊢
        have htf : (freqBranch s).firstTimeFlag = true := by
          rw [freqBranch_firstTimeFlag]; exact hf
        have htts : (freqBranch s).timerStarted = false := by
          rw [freqBranch_timerStarted]; exact hts
        have htr : (freqBranch s).ratioComputedCount = 0 := by
          rw [freqBranch_ratioComputedCount]; exact hr
        by_cases hch : (freqBranch s).ppsCycles = (freqBranch s).lastPpsCycles
        · rw [ppsBranch_eq_self hch] at hts'
          rw [htts] at hts'
          exact absurd hts' (by simp)
        · by_cases hlt : (freqBranch s).firstTimeCount < 10
          · by_cases h0 : (freqBranch s).firstTimeCount = 0
            · rw [ppsBranch_eq_warmupFirst hch h0] at hts'
              have h2 : (freqBranch s).timerStarted = true := hts'
              rw [htts] at h2
              exact absurd h2 (by simp)
            · rw [ppsBranch_eq_warmupLater hch hlt h0] at hts'
              have h2 : (freqBranch s).timerStarted = true := hts'
              rw [htts] at h2
              exact absurd h2 (by simp)
          · rw [ppsBranch_eq_calibrate hch hlt htf]
            exact ⟨rfl, show (freqBranch s).ratioComputedCount + 1 = 1 by omega⟩

/-- Witness for C4: the calibration step of the ideal scenario, which starts
the timer. -/
theorem C4_timer_started_at_calibration_witness :
    (loopBody preCalState).timerPeriod =
      some ((loopBody preCalState).countRatio * (loopBody preCalState).tcxoMicros) ∧
    (loopBody preCalState).ratioComputedCount = 1 :=
  (C4_timer_started_at_calibration idealPrefix preCalState (loopBody preCalState)
    Event.loopPass rfl rfl).2 (by decide) (by decide)

/-- C5: whenever the loop consumes a completed FreqCount window with pulse
count `c` (`FreqCount.available()` true, `FreqCount.read() = c`), the pass
recomputes `tcxoMicros` to exactly `10000000 / c * 1000000`; in particular a
measured count of 10,000,050 pulses yields a value within `1/1000` of
`999995.0`. -/
theorem C5_tcxo_from_measurement (s : St) (c : ℕ) (hp : s.freqPending = some c) :
    (loopBody s).tcxoMicros = tcxoMicrosOf c ∧
    tcxoMicrosOf c = 10000000 / (c : ℚ) * 1000000 ∧
    |tcxoMicrosOf 10000050 - 999995| ≤ 1 / 1000 := by
  refine ⟨?_, rfl, ?_⟩
  · unfold loopBody
    rw [ppsBranch_tcxoMicros,
      freqBranch_eq_meas (show (intervalBranch s).freqPending = some c by
        rw [intervalBranch_freqPending]; exact hp)]
  · rw [abs_le]
    constructor <;> norm_num [tcxoMicrosOf]

/-- Witness for C5: a pending measurement of 10,000,050 pulses. -/
theorem C5_tcxo_from_measurement_witness :
    (loopBody measPending).tcxoMicros = tcxoMicrosOf 10000050 ∧
    tcxoMicrosOf 10000050 = 10000000 / ((10000050 : ℕ) : ℚ) * 1000000 ∧
    |tcxoMicrosOf 10000050 - 999995| ≤ 1 / 1000 :=
  C5_tcxo_from_measurement measPending 10000050 rfl

/-- C6, counterexample to the claim as stated: in the ideal scenario the
timer is started with period exactly `1000000`, which is not approximately
`999995` (it differs by 5), and no fudge is subtracted at `myTimer.begin`
(`1000000 ≠ 1000000 - fudge`). -/
theorem C6_counterexample :
    (run init idealTrace).map St.timerPeriod = some (some 1000000) ∧
    ¬ |(1000000 : ℚ) - 999995| ≤ 1 ∧
    (1000000 : ℚ) ≠ 1000000 - fudge := by
  refine ⟨?_, by norm_num, by norm_num [fudge]⟩
  have h : (run init idealTrace).map St.timerPeriod =
      some (some (((600000000 : ℕ) : ℚ) / 600 / tcxoMicrosOf 10000000 *
        tcxoMicrosOf 10000000)) := rfl
  rw [h]
  norm_num [tcxoMicrosOf]

/-- C6, amended: in the ideal scenario (warm-up edges exactly 600,000,000
cycle ticks apart, one completed measurement of exactly 10,000,000 pulses)
calibration produces `tcxoMicros = 1000000.0` and `countRatio = 1.0`, and the
timer is started with initial period exactly `1000000.0` — the fudge is not
applied at `begin`; it first appears in the subsequent `update` calls, whose
period is `1000000.0 - 0.005`. -/
theorem C6_ideal_scenario :
    (run init idealTrace).map St.tcxoMicros = some 1000000 ∧
    (run init idealTrace).map St.countRatio = some 1 ∧
    (run init idealTrace).map St.timerPeriod = some (some 1000000) ∧
    (run init idealTrace).map St.timerStarted = some true ∧
    (run init idealEmitTrace).map St.interval = some (1000000 - fudge) := by
  refine ⟨?_, ?_, ?_, by decide, ?_⟩
  · have h : (run init idealTrace).map St.tcxoMicros =
        some (tcxoMicrosOf 10000000) := rfl
    rw [h]
    norm_num [tcxoMicrosOf]
  · have h : (run init idealTrace).map St.countRatio =
        some (((600000000 : ℕ) : ℚ) / 600 / tcxoMicrosOf 10000000) := rfl
    rw [h]
    norm_num [tcxoMicrosOf]
  · have h : (run init idealTrace).map St.timerPeriod =
        some (some (((600000000 : ℕ) : ℚ) / 600 / tcxoMicrosOf 10000000 *
          tcxoMicrosOf 10000000)) := rfl
    rw [h]
    norm_num [tcxoMicrosOf]
  · have h : (run init idealEmitTrace).map St.interval =
        some (((600000000 : ℕ) : ℚ) / 600 / tcxoMicrosOf 10000000 *
          tcxoMicrosOf 10000000 - fudge) := rfl
    rw [h]
    norm_num [tcxoMicrosOf, fudge]

/-- C7, counterexample to the claim as stated: a drift sample of exactly
1,000,000.0 µs (cycle difference 600,000,000) is not clamped to zero — the
code's clamp condition `dtus > 1000000.0` is strict — so "a value exactly
equal to 1,000,000.0 is also reported as zero" is false. -/
theorem C7_counterexample :
    dtusOf 600000000 = 1000000 ∧ driftOf (dtusOf 600000000) ≠ 0 := by
  have hd : dtusOf 600000000 = 1000000 := by norm_num [dtusOf]
  refine ⟨hd, ?_⟩
  rw [hd]
  unfold driftOf
  rw [if_neg (by rintro ⟨-, h2⟩; linarith), if_neg (by norm_num)]
  norm_num

/-- C7, amended: drift samples strictly beyond the full span of 1,000,000 µs
are clamped to zero; a sample exactly equal to the span is reported
unchanged (as 1,000,000.0), not clamped. -/
theorem C7_clamp_strict (q : ℚ) (h : 1000000 < q) :
    driftOf q = 0 ∧ driftOf (dtusOf 600000000) = dtusOf 600000000 := by
  constructor
  · unfold driftOf
    rw [if_neg (by rintro ⟨-, h2⟩; linarith), if_pos h]
  · have hd : dtusOf 600000000 = 1000000 := by norm_num [dtusOf]
    rw [hd]
    unfold driftOf
    rw [if_neg (by rintro ⟨-, h2⟩; linarith), if_neg (by norm_num)]

/-- Witness for C7: the amended statement at `q = 2000000`. -/
theorem C7_clamp_strict_witness :
    driftOf 2000000 = 0 ∧ driftOf (dtusOf 600000000) = dtusOf 600000000 :=
  C7_clamp_strict 2000000 (by norm_num)

/-- C8: in every well-formed interleaving of the PPS handler's two stores
(`ppsCycles` at `main.cpp:70`, `ppsTcxoCount` at `main.cpp:73`) with the main
loop's interrupt-disabled copy (`main.cpp:159-162`), every pair of values the
main loop observes comes from one and the same reference edge — no torn
read. -/
theorem C8_no_torn_read (tr : List PAct) (s : PpsShared)
    (h : prun pinit tr = some s) :
    ∀ p ∈ s.reads, p.1 = p.2 :=
  (pinv_prun pinv_init h).2

/-- Witness for C8: two handler executions each followed by a copy; the
second observed pair `(2, 2)` matches. -/
theorem C8_no_torn_read_witness :
    ((2 : ℕ), (2 : ℕ)).1 = ((2 : ℕ), (2 : ℕ)).2 :=
  C8_no_torn_read c8Trace c8State rfl (2, 2) (by decide)

/-- C9: in every run, while `firstTimeFlag` is still set the interval branch
of `loop()` has never executed: `intervalCycles` still equals its initial
value 0, as does `lastIntervalCycles`, no `myTimer.update` call has been made
and no drift record has been emitted; moreover `myTimer.update` is never
called before `myTimer.begin`. -/
theorem C9_no_interval_before_calibration (tr : List Event) (s : St)
    (h : run init tr = some s) :
    (s.firstTimeFlag = true →
      s.intervalCycles = 0 ∧ s.lastIntervalCycles = 0 ∧
      s.updateCount = 0 ∧ s.emitted = []) ∧
    (s.beginCount = 0 → s.updateCount = 0) := by
  have hp := phaseInv_reachable h
  constructor
  · intro hf
    obtain ⟨-, -, -, -, -, hic, hlic, huc, hem, -⟩ := hp.1 hf
    exact ⟨hic, hlic, huc, hem⟩
  · intro hbc
    cases hf : s.firstTimeFlag with
    | true =>
      obtain ⟨-, -, -, -, -, -, -, huc, -, -⟩ := hp.1 hf
      exact huc
    | false =>
      obtain ⟨-, -, -, hbc1, -⟩ := hp.2 hf
      omega

/-- Witness for C9: three edges into warm-up. -/
theorem C9_no_interval_before_calibration_witness :
    (warmupState.firstTimeFlag = true →
      warmupState.intervalCycles = 0 ∧ warmupState.lastIntervalCycles = 0 ∧
      warmupState.updateCount = 0 ∧ warmupState.emitted = []) ∧
    (warmupState.beginCount = 0 → warmupState.updateCount = 0) :=
  C9_no_interval_before_calibration warmupTrace warmupState rfl

/-- C10: every drift value the program emits lies in the half-open interval
`(-500000, 1000000]` microseconds. -/
theorem C10_drift_range (tr : List Event) (s : St) (h : run init tr = some s) :
    ∀ x ∈ s.emitted, -500000 < x ∧ x ≤ 1000000 :=
  emitInv_run emitInv_init h

/-- Witness for C10: the ideal scenario followed by one observed interval
firing emits the single drift record `driftOf (dtusOf 1989946937)`, which
lies in the range. -/
theorem C10_drift_range_witness :
    -500000 < driftOf (dtusOf 1989946937) ∧
    driftOf (dtusOf 1989946937) ≤ 1000000 :=
  C10_drift_range idealEmitTrace idealEmitState rfl (driftOf (dtusOf 1989946937))
    (by rw [show idealEmitState.emitted = [driftOf (dtusOf 1989946937)] from rfl]
        simp)

end Tcxo
